import Mathlib

/-!
Verification of the fragment runtime (reactive widget-tree core).

The development shallowly embeds the Rust sources:
  fragments-core/src/app.rs       event channel, dispatcher loop
  fragments-core/src/fragment.rs  Fragment spawn / write / put / attach
  fragments-core/src/widget.rs    WidgetFuture
  fragments-core/src/notify.rs    AsyncSignal / NotifyReceiver
  src/app.rs, src/widget.rs       earlier draft of the same core
  src/state.rs, src/fragment.rs   effect-registry draft (State, EffectHandle)

The entity-component Store (the flax World) is an external collaborator of
this repository; its operations used by the core are modelled from the
specification of the Store interface (spawn, set, despawn with cascade via
the parent relation, despawn-children).  The components module is declared
in lib.rs but its file is not part of the sources; the widget tag component
and the child-of relation are likewise modelled from the specification.
-/

namespace Fragments

/-- Entities are opaque identifiers allocated by the Store; modelled as the
order of allocation. -/
abbrev Entity := Nat

/-- Modelled from the spec: component identity is global.  The components
module (declared in lib.rs, file absent from the sources) provides the
widget tag component; the parent relation is stored as a component on the
child pointing at the parent entity (flax child-of relation). -/
inductive CompKey where
  | widgetTag : CompKey
  | childOf (parent : Entity) : CompKey
  | user (id : Nat) : CompKey
deriving DecidableEq, Repr

/-- Component values; the claims under verification do not depend on the
typed payload, so a single scalar carrier is used (tags store 0). -/
abbrev Value := Nat

/-- The Store: alive entities plus the typed components keyed by
(entity, component id).  Fresh ids come from a counter, so every id ever
handed out is below nextId. -/
structure World where
  nextId : Nat
  entities : List Entity
  comps : List (Entity × CompKey × Value)
deriving DecidableEq, Repr

namespace World

/-- An entity is alive when the Store lists it. -/
def isAlive (w : World) (e : Entity) : Bool :=
  w.entities.contains e

/-- Store spawn: allocate a fresh entity and set the given tag components
on it (Entity::builder().tag(..).spawn(world)). -/
def spawnWith (w : World) (tags : List (CompKey × Value)) : Entity × World :=
  let id := w.nextId
  (id,
   { nextId := id + 1
     entities := w.entities ++ [id]
     comps := w.comps ++ tags.map (fun t => (id, t.1, t.2)) })

/-- Store set (spec interface: set(Entity, ComponentId, Value) returns
Result with a Missing error): replaces any previous value for the same
(entity, component) pair; fails when the entity is not alive. -/
def set (w : World) (e : Entity) (k : CompKey) (v : Value) : Except Unit World :=
  if w.isAlive e then
    Except.ok
      { w with
        comps := w.comps.filter (fun c => !(c.1 = e && c.2.1 = k)) ++ [(e, k, v)] }
  else
    Except.error ()

/-- The children of an entity: every entity carrying a child-of component
pointing at it. -/
def childrenOf (w : World) (p : Entity) : List Entity :=
  w.comps.filterMap fun c =>
    match c.2.1 with
    | CompKey.childOf q => if q = p then some c.1 else none
    | _ => none

/-- Fuel-bounded descendant enumeration along the parent relation, root
included.  With fuel at least nextId this reaches every descendant of a
well-formed Store (parents are spawned before their children, so ids
strictly increase down the tree). -/
def subtree (w : World) : Nat → Entity → List Entity
  | 0, e => [e]
  | n + 1, e => e :: (w.childrenOf e).flatMap (w.subtree n)

/-- Modelled from the spec: Store despawn with cascade via the parent
relation — removes the entity and its entire descendant subtree together
with all their components; NotFound when the entity is not alive. -/
def despawn (w : World) (e : Entity) : Except Unit World :=
  if w.isAlive e then
    let doomed := w.subtree w.nextId e
    Except.ok
      { w with
        entities := w.entities.filter (fun x => !(doomed.contains x))
        comps := w.comps.filter (fun c => !(doomed.contains c.1)) }
  else
    Except.error ()

/-- Modelled from the spec: Store despawn-children — despawns the subtree
of every child of the entity, leaving the entity itself alive. -/
def despawnChildren (w : World) (e : Entity) : World :=
  let doomed := (w.childrenOf e).flatMap (w.subtree w.nextId)
  { w with
    entities := w.entities.filter (fun x => !(doomed.contains x))
    comps := w.comps.filter (fun c => !(doomed.contains c.1)) }

/-- Store retain on one entity (entity_mut(id).retain(pred)): keeps only
the components of that entity whose key satisfies the predicate. -/
def retainOnly (w : World) (e : Entity) (keep : CompKey) : World :=
  { w with comps := w.comps.filter (fun c => c.1 ≠ e || c.2.1 = keep) }

/-- Holds when a component key placed on an entity respects allocation
order: the parent recorded by a child-of key was allocated first. -/
def parentEarly (e : Entity) (k : CompKey) : Bool :=
  match k with
  | CompKey.childOf p => p < e
  | _ => true

/-- Well-formedness of a Store state: every alive entity is below the
allocation counter, components belong to alive entities, and the parent
stored in a child-of component was allocated before the child. -/
def WF (w : World) : Prop :=
  (∀ e ∈ w.entities, e < w.nextId) ∧
  (∀ c ∈ w.comps, c.1 ∈ w.entities) ∧
  (∀ c ∈ w.comps, parentEarly c.1 c.2.1 = true)

instance : DecidablePred WF := fun w => by
  unfold WF
  infer_instance

end World

/-- The transitive descendant relation of the claims: reflexive, and
closed under following one child-of component. -/
inductive Desc (w : World) : Entity → Entity → Prop
  | refl (e : Entity) : Desc w e e
  | step {e m c : Entity} {v : Value} :
      Desc w e m → (c, CompKey.childOf m, v) ∈ w.comps → Desc w e c

/-- The descendant relation graded by chain length, used to bound the
depth of a descendant chain by the allocation counter. -/
inductive DescN (w : World) : Nat → Entity → Entity → Prop
  | refl (e : Entity) : DescN w 0 e e
  | step {n : Nat} {e m c : Entity} {v : Value} :
      DescN w n e m → (c, CompKey.childOf m, v) ∈ w.comps → DescN w (n + 1) e c

/-- A Fragment handle: the entity it is backed by (the app/channel handle
it also carries is modelled separately as AppState). -/
structure Fragment where
  id : Entity
deriving DecidableEq, Repr

namespace Fragment

/-- Fragment::spawn (fragments-core/src/fragment.rs): tag the widget
marker, tag child-of(parent) when a parent is given, then spawn. -/
def spawn (w : World) (parent : Option Entity) : Fragment × World :=
  let tags :=
    (CompKey.widgetTag, 0) ::
      (match parent with
       | some p => [(CompKey.childOf p, 0)]
       | none => [])
  let (id, w') := w.spawnWith tags
  ({ id := id }, w')

end Fragment

/-- The control events of the dispatcher (fragments-core/src/app.rs,
enum Event). -/
inductive Event where
  | despawn (e : Entity) : Event
  | exit : Event
deriving DecidableEq, Repr

/-- How one pass over a drained batch of events ends: the loop either goes
back to awaiting the channel, returns because Exit was processed, or
returns with an error propagated by the question-mark operator on a failed
Store despawn. -/
inductive BatchOutcome where
  | resume : BatchOutcome
  | exited : BatchOutcome
  | errored : BatchOutcome
deriving DecidableEq, Repr

/-- The body of the handle_events loop (fragments-core/src/app.rs): for
each drained event, Exit returns Ok from the loop at once, and Despawn
applies the Store despawn, the question-mark operator turning a Store
error into an early error return.  Also returns the list of events whose
Store action was actually applied, in order. -/
def handleBatch : World → List Event → World × BatchOutcome × List Event
  | w, [] => (w, BatchOutcome.resume, [])
  | w, Event.exit :: _ => (w, BatchOutcome.exited, [])
  | w, Event.despawn e :: rest =>
    match w.despawn e with
    | Except.ok w' =>
      let r := handleBatch w' rest
      (r.1, r.2.1, Event.despawn e :: r.2.2)
    | Except.error _ => (w, BatchOutcome.errored, [])

/-- Holds (computably) when a batch contains no Exit and every Despawn in
it succeeds against the Store as the batch is applied in order. -/
def cleanBatch : World → List Event → Bool
  | _, [] => true
  | _, Event.exit :: _ => false
  | w, Event.despawn e :: rest =>
    match w.despawn e with
    | Except.ok w' => cleanBatch w' rest
    | Except.error _ => false

/-- Applies the Store actions of a batch in order, skipping failures: the
reference fold used to state what a fully applied batch produces. -/
def applyClean : World → List Event → World
  | w, [] => w
  | w, Event.exit :: rest => applyClean w rest
  | w, Event.despawn e :: rest =>
    match w.despawn e with
    | Except.ok w' => applyClean w' rest
    | Except.error _ => applyClean w rest

/-- Stated from the specification sentence for comparison with the code:
a dispatcher that applies the whole drained batch to the Store in enqueue
order, regardless of control events. -/
def applyWholeBatchSpec (w : World) (batch : List Event) : World :=
  applyClean w batch

/-- The dispatcher side of the app: the Store, the queued events of the
unbounded channel in FIFO order, and whether the receiving loop has
returned (which drops the receiver and closes the channel). -/
structure AppState where
  world : World
  queue : List Event
  closed : Bool
deriving DecidableEq, Repr

/-- The typed failure of enqueue after the dispatcher has exited
(flume SendError). -/
inductive SendError where
  | channelClosed : SendError
deriving DecidableEq, Repr

namespace AppState

/-- AppRef::enqueue (fragments-core/src/app.rs): tx.send on the unbounded
channel — succeeds while the receiver is alive, fails with the typed
channel-closed error once the loop has returned. -/
def enqueue (s : AppState) (ev : Event) : Except SendError AppState :=
  if s.closed then
    Except.error SendError.channelClosed
  else
    Except.ok { s with queue := s.queue ++ [ev] }

/-- One iteration of the handle_events loop after recv_async yields: the
whole current queue is drained and handled as a batch without awaiting;
when the loop returns (Exit or error) the receiver is dropped and the
channel closes. -/
def dispatchStep (s : AppState) : AppState × BatchOutcome :=
  let r := handleBatch s.world s.queue
  ({ world := r.1
     queue := []
     closed := s.closed || decide (r.2.1 ≠ BatchOutcome.resume) },
   r.2.1)

end AppState

/-- The dispatcher loop over successive arrivals: each element of the list
is the queue content found ready at one wakeup of recv_async.  Returns the
final Store together with how the loop ended (resume here means the
channel ran dry with all senders gone). -/
def runLoop : World → List (List Event) → World × BatchOutcome
  | w, [] => (w, BatchOutcome.resume)
  | w, q :: rest =>
    let r := handleBatch w q
    match r.2.1 with
    | BatchOutcome.resume => runLoop r.1 rest
    | out => (r.1, out)

/-- A widget's mount body, abstracted to the component writes it performs
on its fragment in program order; rich enough for the put/attach claims,
which quantify over the widget. -/
abbrev WidgetProg := List (CompKey × Value)

namespace FragmentRef

/-- FragmentRef::set (fragments-core/src/fragment.rs and src/widget.rs):
world.set(id, component, value).unwrap() — the Store Result is unwrapped,
so a Missing error is a panic, modelled as none. -/
def set (w : World) (f : Fragment) (k : CompKey) (v : Value) : Option World :=
  (w.set f.id k v).toOption

/-- FragmentRef::clear (src/widget.rs; fragments-core adds .ok() on the
children call): despawn the children of the fragment, then retain only the
widget tag component on the fragment itself. -/
def clear (w : World) (f : Fragment) : World :=
  (w.despawnChildren f.id).retainOnly f.id CompKey.widgetTag

end FragmentRef

/-- Runs a widget's mount body against the fragment entity: each write
goes through FragmentRef::set, whose unwrap propagates a panic (none). -/
def mountWrites (w : World) (e : Entity) : WidgetProg → Option World
  | [] => some w
  | (k, v) :: rest =>
    match FragmentRef.set w { id := e } k v with
    | some w' => mountWrites w' e rest
    | none => none

namespace Fragment

/-- Fragment::put in src/widget.rs: self.write().clear() and then the
widget renders into this same fragment (same entity id). -/
def putSrc (w : World) (f : Fragment) (prog : WidgetProg) : Option World :=
  mountWrites (FragmentRef.clear w f) f.id prog

/-- Fragment::put in fragments-core/src/fragment.rs: mounts the widget on
a fragment with this fragment's id — no clear call of any kind. -/
def putCore (w : World) (f : Fragment) (prog : WidgetProg) : Option World :=
  mountWrites w f.id prog

end Fragment

/-- WidgetFuture (fragments-core/src/widget.rs): the child's entity id and
the not-yet-run mount body (async-trait boxes the body; none of it runs
until the future is polled). -/
structure WidgetFuture where
  id : Entity
  pending : WidgetProg
deriving DecidableEq, Repr

namespace Fragment

/-- Fragment::attach (fragments-core/src/fragment.rs): synchronously
spawns the child fragment parented to self inside the locked world, then
wraps the suspended mount body with the child id into a WidgetFuture. -/
def attach (w : World) (f : Fragment) (prog : WidgetProg) : WidgetFuture × World :=
  let (child, w') := Fragment.spawn w (some f.id)
  ({ id := child.id, pending := prog }, w')

end Fragment

namespace WidgetFuture

/-- Dropping a WidgetFuture: the struct has no Drop implementation (nor
does Fragment), so dropping it only frees the boxed mount body — it
touches neither the Store nor the event channel.  The same holds for
FragmentFuture in src/fragment.rs despite its doc comment. -/
def dropFuture (s : AppState) (_fut : WidgetFuture) : AppState :=
  s

end WidgetFuture

/-- AsyncSignal (fragments-core/src/notify.rs): the woken flag and the
registered waker (modelled as an opaque task id). -/
structure AsyncSignal where
  woken : Bool
  waker : Option Nat
deriving DecidableEq, Repr

/-- The result of polling a future. -/
inductive Poll where
  | ready : Poll
  | pending : Poll
deriving DecidableEq, Repr

namespace AsyncSignal

/-- AsyncSignal::wake: store true into the woken flag, then wake the
registered waker by reference if there is one; returns the task wakeups
delivered. -/
def wake (s : AsyncSignal) : AsyncSignal × List Nat :=
  ({ s with woken := true }, s.waker.toList)

/-- NotifyReceiver poll: compare-exchange the woken flag from true to
false — on success return Ready, otherwise store the current waker and
return Pending. -/
def poll (s : AsyncSignal) (task : Nat) : Poll × AsyncSignal :=
  if s.woken then
    (Poll.ready, { s with woken := false })
  else
    (Poll.pending, { s with waker := some task })

/-- The signal state after some number of notify calls with no poll in
between (NotifySender::notify delegates to wake). -/
def wakeN (s : AsyncSignal) : Nat → AsyncSignal
  | 0 => s
  | n + 1 => (wakeN s n).wake.1

end AsyncSignal

/-- The events of the effect-registry draft (src/state.rs, enum Event)
that the stale-key claim is about. -/
inductive SEvent where
  | runEffect (key : Nat) : SEvent
  | removeEffect (key : Nat) : SEvent

/-- The State of the effect-registry draft: the world plus the slotmap of
registered effects (keys to mutation closures). -/
structure StateS where
  world : World
  effects : List (Nat × (World → World))
  nextKey : Nat

/-- Result of handling one event in State::run: either the next state, or
a panic unwinding out of the loop with the given message. -/
inductive StateStep where
  | ok (s : StateS) : StateStep
  | panicked (msg : String) : StateStep

/-- The RunEffect and RemoveEffect arms of the State::run loop
(src/state.rs): RunEffect looks the key up and calls expect, which panics
when the effect is absent; RemoveEffect is an unfinished arm that always
panics. -/
def StateS.step (s : StateS) : SEvent → StateStep
  | SEvent.runEffect k =>
    match (s.effects.filter (fun p => p.1 = k)).head? with
    | some p => StateStep.ok { s with world := p.2 s.world }
    | none => StateStep.panicked "Effect does not exist"
  | SEvent.removeEffect _ => StateStep.panicked "not yet implemented"

/-- EffectHandle::drop (src/state.rs): sends RemoveEffect for its key onto
the state channel, ignoring a send failure. -/
def EffectHandle.dropHandle (queue : List SEvent) (key : Nat) : List SEvent :=
  queue ++ [SEvent.removeEffect key]

lemma isAlive_iff (w : World) (e : Entity) : w.isAlive e = true ↔ e ∈ w.entities := by
  simp [World.isAlive, List.contains]

lemma mem_childrenOf {w : World} {p c : Entity} :
    c ∈ w.childrenOf p ↔ ∃ v, (c, CompKey.childOf p, v) ∈ w.comps := by
  constructor
  · intro h
    rcases List.mem_filterMap.mp h with ⟨a, ha, hfa⟩
    rcases a with ⟨e, k, v⟩
    cases k with
    | widgetTag => simp [World.childrenOf] at hfa
    | childOf q =>
        by_cases hq : q = p
        · subst hq
          simp at hfa
          subst hfa
          exact ⟨v, ha⟩
        · simp [hq] at hfa
    | user i => simp at hfa
  · rintro ⟨v, hv⟩
    exact List.mem_filterMap.mpr ⟨(c, CompKey.childOf p, v), hv, by simp⟩

lemma subtree_self (w : World) (n : Nat) (e : Entity) : e ∈ w.subtree n e := by
  cases n <;> simp [World.subtree]

lemma subtree_child_step {w : World} {m c : Entity} :
    ∀ {n : Nat} {e : Entity}, m ∈ w.subtree n e → c ∈ w.childrenOf m →
      c ∈ w.subtree (n + 1) e := by
  intro n
  induction n with
  | zero =>
      intro e hm hc
      simp [World.subtree] at hm
      subst hm
      show c ∈ m :: (w.childrenOf m).flatMap (w.subtree 0)
      refine List.mem_cons.mpr (Or.inr ?_)
      exact List.mem_flatMap.mpr ⟨c, hc, subtree_self w 0 c⟩
  | succ k ih =>
      intro e hm hc
      rw [show w.subtree (k + 1) e
            = e :: (w.childrenOf e).flatMap (w.subtree k) from rfl] at hm
      rcases List.mem_cons.mp hm with hm | hm
      · subst hm
        show c ∈ m :: (w.childrenOf m).flatMap (w.subtree (k + 1))
        refine List.mem_cons.mpr (Or.inr ?_)
        exact List.mem_flatMap.mpr ⟨c, hc, subtree_self w (k + 1) c⟩
      · rcases List.mem_flatMap.mp hm with ⟨x, hx, hmx⟩
        show c ∈ e :: (w.childrenOf e).flatMap (w.subtree (k + 1))
        refine List.mem_cons.mpr (Or.inr ?_)
        exact List.mem_flatMap.mpr ⟨x, hx, ih hmx hc⟩

lemma descN_of_desc {w : World} {e d : Entity} (h : Desc w e d) :
    ∃ n, DescN w n e d := by
  induction h with
  | refl => exact ⟨0, DescN.refl _⟩
  | step _ hc ih =>
      rcases ih with ⟨n, hn⟩
      exact ⟨n + 1, DescN.step hn hc⟩

lemma descN_le {w : World} (hwf : w.WF) {n : Nat} {e d : Entity}
    (h : DescN w n e d) : e + n ≤ d := by
  induction h with
  | refl => exact Nat.le_of_eq (Nat.add_zero _)
  | step _ hc ih =>
      have hpe := hwf.2.2 _ hc
      simp [World.parentEarly] at hpe
      exact Nat.le_trans (Nat.succ_le_succ ih) hpe

lemma descN_mem {w : World} (hwf : w.WF) {n : Nat} {e d : Entity}
    (he : e ∈ w.entities) (h : DescN w n e d) : d ∈ w.entities := by
  induction h with
  | refl => exact he
  | step _ hc _ => exact hwf.2.1 _ hc

lemma descN_subtree {w : World} {n : Nat} {e d : Entity}
    (h : DescN w n e d) : ∀ {fuel : Nat}, n < fuel → d ∈ w.subtree fuel e := by
  induction h with
  | refl =>
      intro fuel _
      exact subtree_self w fuel _
  | step _ hc ih =>
      intro fuel hlt
      cases fuel with
      | zero => omega
      | succ f =>
          have hm := ih (show _ < f by omega)
          exact subtree_child_step hm (mem_childrenOf.mpr ⟨_, hc⟩)

lemma desc_subtree {w : World} (hwf : w.WF) {e d : Entity}
    (he : e ∈ w.entities) (h : Desc w e d) : d ∈ w.subtree w.nextId e := by
  rcases descN_of_desc h with ⟨n, hn⟩
  have hle := descN_le hwf hn
  have hdm := descN_mem hwf he hn
  have hdlt := hwf.1 d hdm
  exact descN_subtree hn
    (Nat.lt_of_le_of_lt (Nat.le_trans (Nat.le_add_left n e) hle) hdlt)

lemma wakeN_woken (s : AsyncSignal) {n : Nat} (hn : 1 ≤ n) :
    (AsyncSignal.wakeN s n).woken = true := by
  cases n with
  | zero => omega
  | succ m => simp [AsyncSignal.wakeN, AsyncSignal.wake]

/-- C9: two or more notify calls between two polls coalesce — the first
poll after them returns Ready and resets the woken flag, and a further
poll without a new notify returns Pending. -/
theorem c9_notify_coalesces (s : AsyncSignal) (n task task2 : Nat) (hn : 2 ≤ n) :
    ((AsyncSignal.wakeN s n).poll task).1 = Poll.ready ∧
    ((AsyncSignal.wakeN s n).poll task).2.woken = false ∧
    (((AsyncSignal.wakeN s n).poll task).2.poll task2).1 = Poll.pending := by
  have hw := wakeN_woken s (show 1 ≤ n by omega)
  refine ⟨?_, ?_, ?_⟩ <;> simp [AsyncSignal.poll, hw]

/-- Witness for C9 at three notify calls from the initial signal state. -/
theorem c9_notify_coalesces_witness :
    ((AsyncSignal.wakeN ⟨false, none⟩ 3).poll 0).1 = Poll.ready ∧
    ((AsyncSignal.wakeN ⟨false, none⟩ 3).poll 0).2.woken = false ∧
    (((AsyncSignal.wakeN ⟨false, none⟩ 3).poll 0).2.poll 1).1 = Poll.pending :=
  c9_notify_coalesces ⟨false, none⟩ 3 0 1 (by decide)

/-- C7: processing Exit returns from the dispatcher loop; once the loop
has returned the channel is closed and every enqueue fails with the typed
channel-closed error, while enqueue on a not-yet-closed channel appends
the event to the queue and succeeds. -/
theorem c7_exit_closes_channel (s : AppState) (ev : Event) (w : World)
    (rest : List Event) :
    handleBatch w (Event.exit :: rest) = (w, BatchOutcome.exited, []) ∧
    (s.dispatchStep.2 = BatchOutcome.exited →
      s.dispatchStep.1.enqueue ev = Except.error SendError.channelClosed) ∧
    (s.closed = false →
      s.enqueue ev = Except.ok { s with queue := s.queue ++ [ev] }) := by
  refine ⟨rfl, ?_, ?_⟩
  · intro h
    have hcl : s.dispatchStep.1.closed = true := by
      simp only [AppState.dispatchStep] at h ⊢
      simp [h]
    simp [AppState.enqueue, hcl]
  · intro h
    simp [AppState.enqueue, h]

/-- Witness for C7: a queue holding Exit is dispatched, after which
enqueue returns the channel-closed error. -/
theorem c7_exit_closes_channel_witness :
    (AppState.dispatchStep ⟨⟨0, [], []⟩, [Event.exit], false⟩).1.enqueue Event.exit
      = Except.error SendError.channelClosed :=
  (c7_exit_closes_channel ⟨⟨0, [], []⟩, [Event.exit], false⟩ Event.exit
    ⟨0, [], []⟩ []).2.1 (by decide)

/-- C2 counterexample: applying a Despawn whose target entity is gone
makes handle_events return with the error (the question-mark operator):
the batch outcome is errored, not resume, and the loop does not go on to
later arrivals — contradicting the claim that such an error is swallowed
and the loop continues. -/
theorem c2_despawn_error_aborts_loop_cx :
    handleBatch ⟨0, [], []⟩ [Event.despawn 0]
      = (⟨0, [], []⟩, BatchOutcome.errored, []) ∧
    runLoop ⟨0, [], []⟩ [[Event.despawn 0], [Event.exit]]
      = (⟨0, [], []⟩, BatchOutcome.errored) := by
  constructor <;> rfl

/-- C2 amended: an internal error while applying a Despawn is propagated
by the question-mark operator — handle_events returns the error at once,
terminating the event loop and discarding the rest of the drained batch
and all later arrivals. -/
theorem c2_despawn_error_propagates {w : World} {e : Entity} (rest : List Event)
    (h : w.despawn e = Except.error ()) :
    handleBatch w (Event.despawn e :: rest) = (w, BatchOutcome.errored, []) ∧
    ∀ qs, runLoop w ((Event.despawn e :: rest) :: qs) = (w, BatchOutcome.errored) := by
  have h1 : handleBatch w (Event.despawn e :: rest)
      = (w, BatchOutcome.errored, []) := by
    simp [handleBatch, h]
  refine ⟨h1, ?_⟩
  intro qs
  simp [runLoop, h1]

/-- Witness for C2: despawning entity 0 in the empty Store errors and the
loop ends. -/
theorem c2_despawn_error_propagates_witness :
    handleBatch ⟨0, [], []⟩ [Event.despawn 0]
      = (⟨0, [], []⟩, BatchOutcome.errored, []) :=
  (@c2_despawn_error_propagates ⟨0, [], []⟩ 0 [] rfl).1

/-- C5: running a stale effect key is not a no-op — the RunEffect arm of
State::run panics through expect when the key is absent, and the
RemoveEffect arm (reached whenever an EffectHandle is dropped) always
panics as unfinished code. -/
theorem c5_stale_effect_key_panics :
    StateS.step ⟨⟨0, [], []⟩, [], 0⟩ (SEvent.runEffect 0)
      = StateStep.panicked "Effect does not exist" ∧
    ∀ (s : StateS) (k : Nat),
      StateS.step s (SEvent.removeEffect k)
        = StateStep.panicked "not yet implemented" :=
  ⟨rfl, fun _ _ => rfl⟩

/-- C6 counterexample: FragmentRef::set on an entity missing from the
Store unwraps the Store error and panics (modelled as none) — it is not
recovered as a no-op. -/
theorem c6_set_missing_entity_panics_cx :
    FragmentRef.set ⟨0, [], []⟩ ⟨0⟩ (CompKey.user 1) 7 = none ∧
    ∀ w', FragmentRef.set ⟨0, [], []⟩ ⟨0⟩ (CompKey.user 1) 7 ≠ some w' := by
  refine ⟨rfl, ?_⟩
  intro w' h
  rw [show FragmentRef.set ⟨0, [], []⟩ ⟨0⟩ (CompKey.user 1) 7 = none from rfl] at h
  exact Option.noConfusion h

/-- C6 amended: FragmentRef::set succeeds when the fragment entity is
alive, and panics (the unwrap on the Store result) when the entity is
missing — the failure is propagated to the calling widget, not recovered
locally. -/
theorem c6_set_missing_entity_amended (w : World) (f : Fragment) (k : CompKey)
    (v : Value) :
    (f.id ∈ w.entities → ∃ w', FragmentRef.set w f k v = some w') ∧
    (f.id ∉ w.entities → FragmentRef.set w f k v = none) := by
  constructor
  · intro h
    have hal : w.isAlive f.id = true := (isAlive_iff w f.id).mpr h
    refine ⟨{ w with
      comps := w.comps.filter (fun c => !(c.1 = f.id && c.2.1 = k)) ++ [(f.id, k, v)] }, ?_⟩
    simp [FragmentRef.set, World.set, hal, Except.toOption]
  · intro h
    have hal : w.isAlive f.id = false := by
      by_contra hb
      simp at hb
      exact h ((isAlive_iff w f.id).mp hb)
    simp [FragmentRef.set, World.set, hal, Except.toOption]

/-- Witness for C6 amended: a set on an alive entity succeeds. -/
theorem c6_set_missing_entity_amended_witness :
    ∃ w', FragmentRef.set ⟨1, [0], []⟩ ⟨0⟩ (CompKey.user 2) 3 = some w' :=
  (c6_set_missing_entity_amended ⟨1, [0], []⟩ ⟨0⟩ (CompKey.user 2) 3).1 (by decide)

/-- C1: the WidgetFuture returned by attach has no Drop implementation, so
dropping it before its first poll leaves the Store and the event queue
untouched — the child entity spawned by attach stays alive with its tag
and parent relation, and no Despawn event is enqueued. -/
theorem c1_drop_without_poll_leaves_child_alive :
    let root : Fragment × World := Fragment.spawn ⟨0, [], []⟩ none
    let att : WidgetFuture × World :=
      Fragment.attach root.2 root.1 [(CompKey.user 1, 5)]
    let s : AppState := WidgetFuture.dropFuture ⟨att.2, [], false⟩ att.1
    s.world = att.2 ∧ s.queue = [] ∧
    att.1.id ∈ s.world.entities ∧
    (att.1.id, CompKey.widgetTag, 0) ∈ s.world.comps ∧
    (att.1.id, CompKey.childOf root.1.id, 0) ∈ s.world.comps ∧
    Event.despawn att.1.id ∉ s.queue := by
  decide

/-- C3: processing a Despawn(E) event applies the Store despawn, which
removes every component of E and of every transitive descendant of E from
the Store together with the entities themselves — no orphaned components
remain (Store cascade modelled from the spec, the Store being external). -/
theorem c3_despawn_cascades {w w' : World} {e d : Entity} (hwf : w.WF)
    (h : w.despawn e = Except.ok w') (hd : Desc w e d) :
    (∀ k v, (d, k, v) ∉ w'.comps) ∧ d ∉ w'.entities := by
  by_cases hal : w.isAlive e = true
  · have he : e ∈ w.entities := (isAlive_iff w e).mp hal
    have hdoom : d ∈ w.subtree w.nextId e := desc_subtree hwf he hd
    simp only [World.despawn, hal, if_true] at h
    rw [Except.ok.injEq] at h
    subst h
    constructor
    · intro k v hm
      have hp := (List.mem_filter.mp hm).2
      simp [List.contains] at hp
      exact hp hdoom
    · intro hm
      have hp := (List.mem_filter.mp hm).2
      simp [List.contains] at hp
      exact hp hdoom
  · simp only [World.despawn] at h
    rw [if_neg (by simpa using hal)] at h
    exact Except.noConfusion h

/-- Witness for C3: despawning the root of a two-level tree removes the
grandchild entity and all its components. -/
theorem c3_despawn_cascades_witness :
    (∀ (k : CompKey) (v : Value), (2, k, v) ∉ (⟨3, [], []⟩ : World).comps) ∧
    (2 : Entity) ∉ (⟨3, [], []⟩ : World).entities :=
  @c3_despawn_cascades
    ⟨3, [0, 1, 2],
      [(0, CompKey.widgetTag, 0), (1, CompKey.childOf 0, 0),
       (2, CompKey.childOf 1, 0), (2, CompKey.user 7, 5)]⟩
    ⟨3, [], []⟩ 0 2 (by decide) rfl
    (Desc.step (v := 0)
      (Desc.step (c := 1) (v := 0) (Desc.refl 0) (by decide)) (by decide))

lemma subtree_ge {w : World} (hwf : w.WF) :
    ∀ {n : Nat} {c x : Entity}, x ∈ w.subtree n c → c ≤ x := by
  intro n
  induction n with
  | zero =>
      intro c x hx
      simp [World.subtree] at hx
      exact Nat.le_of_eq hx.symm
  | succ k ih =>
      intro c x hx
      rw [show w.subtree (k + 1) c
            = c :: (w.childrenOf c).flatMap (w.subtree k) from rfl] at hx
      rcases List.mem_cons.mp hx with hx | hx
      · exact Nat.le_of_eq hx.symm
      · rcases List.mem_flatMap.mp hx with ⟨y, hy, hxy⟩
        rcases mem_childrenOf.mp hy with ⟨v, hv⟩
        have hcy := hwf.2.2 _ hv
        simp [World.parentEarly] at hcy
        exact Nat.le_trans (Nat.le_of_lt hcy) (ih hxy)

lemma self_notin_children_doom {w : World} (hwf : w.WF) (e : Entity) :
    e ∉ (w.childrenOf e).flatMap (w.subtree w.nextId) := by
  intro hmem
  rcases List.mem_flatMap.mp hmem with ⟨y, hy, hxy⟩
  rcases mem_childrenOf.mp hy with ⟨v, hv⟩
  have hlt := hwf.2.2 _ hv
  simp [World.parentEarly] at hlt
  exact Nat.lt_irrefl e (Nat.lt_of_lt_of_le hlt (subtree_ge hwf hxy))

/-- C4 counterexample: Fragment::put in fragments-core performs no clear —
on a fragment with a live child and a stale user component, put with a
widget that writes nothing returns the Store unchanged: the child is still
alive (still a child) and the stale component is still present, against
the claim that put first despawns the children and removes all but the tag
component. -/
theorem c4_putcore_does_not_clear_cx :
    let w4 : World :=
      ⟨2, [0, 1],
        [(0, CompKey.widgetTag, 0), (0, CompKey.user 5, 9),
         (1, CompKey.widgetTag, 0), (1, CompKey.childOf 0, 0)]⟩
    Fragment.putCore w4 ⟨0⟩ [] = some w4 ∧
    (1 : Entity) ∈ w4.entities ∧
    ((0 : Entity), CompKey.user 5, (9 : Value)) ∈ w4.comps ∧
    (1 : Entity) ∈ w4.childrenOf 0 := by
  decide

/-- C4 amended: put in the src draft does clear first — after clear the
fragment's children are despawned, only the widget tag component remains
on the fragment, a present tag survives, and the fragment entity itself
stays alive with the same id; put then runs the widget's mount writes
against that same entity id.  The fragments-core put runs the mount
writes against the same entity id without any clearing. -/
theorem c4_put_amended (w : World) (f : Fragment) (prog : WidgetProg)
    (hwf : w.WF) (halive : f.id ∈ w.entities) :
    (∀ c ∈ w.childrenOf f.id, c ∉ (FragmentRef.clear w f).entities) ∧
    (∀ k v, (f.id, k, v) ∈ (FragmentRef.clear w f).comps → k = CompKey.widgetTag) ∧
    (∀ v, (f.id, CompKey.widgetTag, v) ∈ w.comps →
      (f.id, CompKey.widgetTag, v) ∈ (FragmentRef.clear w f).comps) ∧
    f.id ∈ (FragmentRef.clear w f).entities ∧
    Fragment.putSrc w f prog = mountWrites (FragmentRef.clear w f) f.id prog ∧
    Fragment.putCore w f prog = mountWrites w f.id prog := by
  have hself := self_notin_children_doom hwf f.id
  have hself2 : ∀ x ∈ w.childrenOf f.id, f.id ∉ w.subtree w.nextId x :=
    fun x hx hmem => hself (List.mem_flatMap.mpr ⟨x, hx, hmem⟩)
  refine ⟨?_, ?_, ?_, ?_, rfl, rfl⟩
  · intro c hc hmem
    have hp := (List.mem_filter.mp hmem).2
    simp [List.contains] at hp
    exact hp c hc (subtree_self w w.nextId c)
  · intro k v hm
    have hp := (List.mem_filter.mp hm).2
    simpa using hp
  · intro v hv
    refine List.mem_filter.mpr ⟨List.mem_filter.mpr ⟨hv, ?_⟩, ?_⟩
    · simp [List.contains]
      exact hself2
    · simp
  · refine List.mem_filter.mpr ⟨halive, ?_⟩
    simp [List.contains]
    exact hself2

/-- Witness for C4 amended at a fragment with one child and one stale
component. -/
theorem c4_put_amended_witness :
    let w4 : World :=
      ⟨2, [0, 1],
        [(0, CompKey.widgetTag, 0), (0, CompKey.user 5, 9),
         (1, CompKey.widgetTag, 0), (1, CompKey.childOf 0, 0)]⟩
    (∀ c ∈ w4.childrenOf 0, c ∉ (FragmentRef.clear w4 ⟨0⟩).entities) ∧
    (∀ k v, (0, k, v) ∈ (FragmentRef.clear w4 ⟨0⟩).comps → k = CompKey.widgetTag) ∧
    (∀ v, ((0 : Entity), CompKey.widgetTag, v) ∈ w4.comps →
      ((0 : Entity), CompKey.widgetTag, v) ∈ (FragmentRef.clear w4 ⟨0⟩).comps) ∧
    (0 : Entity) ∈ (FragmentRef.clear w4 ⟨0⟩).entities ∧
    Fragment.putSrc w4 ⟨0⟩ [(CompKey.user 3, 1)]
      = mountWrites (FragmentRef.clear w4 ⟨0⟩) 0 [(CompKey.user 3, 1)] ∧
    Fragment.putCore w4 ⟨0⟩ [(CompKey.user 3, 1)]
      = mountWrites w4 0 [(CompKey.user 3, 1)] :=
  c4_put_amended _ ⟨0⟩ [(CompKey.user 3, 1)] (by decide) (by decide)

lemma handleBatch_clean :
    ∀ (q : List Event) (w : World), cleanBatch w q = true →
      handleBatch w q = (applyClean w q, BatchOutcome.resume, q) := by
  intro q
  induction q with
  | nil => intro w _; rfl
  | cons ev rest ih =>
      intro w hclean
      cases ev with
      | exit => simp [cleanBatch] at hclean
      | despawn e =>
          cases hde : w.despawn e with
          | ok w' =>
              have hc' : cleanBatch w' rest = true := by
                simpa [cleanBatch, hde] using hclean
              simp [handleBatch, applyClean, hde, ih w' hc']
          | error u =>
              simp [cleanBatch, hde] at hclean

lemma handleBatch_exit_after :
    ∀ (pre : List Event) (w : World) (post : List Event), cleanBatch w pre = true →
      handleBatch w (pre ++ Event.exit :: post)
        = (applyClean w pre, BatchOutcome.exited, pre) := by
  intro pre
  induction pre with
  | nil => intro w post _; rfl
  | cons ev rest ih =>
      intro w post hclean
      cases ev with
      | exit => simp [cleanBatch] at hclean
      | despawn e =>
          cases hde : w.despawn e with
          | ok w' =>
              have hc' : cleanBatch w' rest = true := by
                simpa [cleanBatch, hde] using hclean
              simp [handleBatch, applyClean, hde, ih w' post hc']
          | error u =>
              simp [cleanBatch, hde] at hclean

/-- C8 counterexample: a drained batch holding Exit followed by a Despawn
of a live entity is consumed whole, but the Despawn after the Exit is
never applied — the entity survives, while applying the whole batch in
enqueue order (the claim as stated) would remove it. -/
theorem c8_exit_discards_drained_tail_cx :
    handleBatch ⟨1, [0], [(0, CompKey.widgetTag, 0)]⟩ [Event.exit, Event.despawn 0]
      = (⟨1, [0], [(0, CompKey.widgetTag, 0)]⟩, BatchOutcome.exited, []) ∧
    (0 : Entity) ∈
      (handleBatch ⟨1, [0], [(0, CompKey.widgetTag, 0)]⟩
        [Event.exit, Event.despawn 0]).1.entities ∧
    (0 : Entity) ∉
      (applyWholeBatchSpec ⟨1, [0], [(0, CompKey.widgetTag, 0)]⟩
        [Event.exit, Event.despawn 0]).entities := by
  decide

/-- C8 amended: the dispatcher drains the queued events and consumes each
exactly once; a batch with no Exit and no failing Despawn is applied to
the Store whole, in enqueue order, after which the loop goes back to
awaiting; a batch with an Exit applies exactly the prefix before the Exit
and then terminates, discarding the drained tail. -/
theorem c8_fifo_batch_amended :
    (∀ (w : World) (q : List Event), cleanBatch w q = true →
      handleBatch w q = (applyClean w q, BatchOutcome.resume, q)) ∧
    (∀ (w : World) (pre post : List Event), cleanBatch w pre = true →
      handleBatch w (pre ++ Event.exit :: post)
        = (applyClean w pre, BatchOutcome.exited, pre)) ∧
    (∀ (w : World) (q : List Event) (rest : List (List Event)),
      cleanBatch w q = true →
      runLoop w (q :: rest) = runLoop (applyClean w q) rest) := by
  refine ⟨fun w q h => handleBatch_clean q w h,
          fun w pre post h => handleBatch_exit_after pre w post h, ?_⟩
  intro w q rest h
  simp [runLoop, handleBatch_clean q w h]

/-- Witness for C8 amended: a batch of one successful Despawn is applied
whole and the loop resumes. -/
theorem c8_fifo_batch_amended_witness :
    handleBatch ⟨1, [0], [(0, CompKey.widgetTag, 0)]⟩ [Event.despawn 0]
      = (applyClean ⟨1, [0], [(0, CompKey.widgetTag, 0)]⟩ [Event.despawn 0],
         BatchOutcome.resume, [Event.despawn 0]) :=
  c8_fifo_batch_amended.1 ⟨1, [0], [(0, CompKey.widgetTag, 0)]⟩
    [Event.despawn 0] (by decide)

/-- C10: Fragment::attach spawns the child synchronously — the Store
returned by attach already contains a fresh entity carrying the widget tag
and the child-of(parent) relation and nothing else, the returned future's
id is that entity, and the widget's mount body is still pending,
untouched, even if the future is never polled. -/
theorem c10_attach_spawns_synchronously (w : World) (f : Fragment)
    (prog : WidgetProg) (hwf : w.WF) :
    let r := Fragment.attach w f prog
    r.1.id ∉ w.entities ∧
    r.1.id ∈ r.2.entities ∧
    r.1.pending = prog ∧
    r.2.comps = w.comps ++
      [(r.1.id, CompKey.widgetTag, 0), (r.1.id, CompKey.childOf f.id, 0)] ∧
    r.2.comps.filter (fun c => c.1 == r.1.id)
      = [(r.1.id, CompKey.widgetTag, 0), (r.1.id, CompKey.childOf f.id, 0)] := by
  have hid : (Fragment.attach w f prog).1.id = w.nextId := rfl
  refine ⟨?_, ?_, rfl, rfl, ?_⟩
  · intro hmem
    rw [hid] at hmem
    exact Nat.lt_irrefl w.nextId (hwf.1 w.nextId hmem)
  · show w.nextId ∈ w.entities ++ [w.nextId]
    simp
  · show (w.comps ++
        [(w.nextId, CompKey.widgetTag, 0), (w.nextId, CompKey.childOf f.id, 0)]).filter
          (fun c => c.1 == w.nextId)
      = [(w.nextId, CompKey.widgetTag, 0), (w.nextId, CompKey.childOf f.id, 0)]
    rw [List.filter_append]
    have h1 : w.comps.filter (fun c => c.1 == w.nextId) = [] := by
      rw [List.filter_eq_nil_iff]
      intro c hc
      have hlt := hwf.1 c.1 (hwf.2.1 c hc)
      simp
      exact Nat.ne_of_lt hlt
    rw [h1]
    simp

/-- Witness for C10: attaching to a root fragment in a one-entity Store. -/
theorem c10_attach_spawns_synchronously_witness :
    let r := Fragment.attach ⟨1, [0], [(0, CompKey.widgetTag, 0)]⟩ ⟨0⟩
      [(CompKey.user 1, 5)]
    r.1.id ∉ (⟨1, [0], [(0, CompKey.widgetTag, 0)]⟩ : World).entities ∧
    r.1.id ∈ r.2.entities ∧
    r.1.pending = [(CompKey.user 1, 5)] ∧
    r.2.comps = (⟨1, [0], [(0, CompKey.widgetTag, 0)]⟩ : World).comps ++
      [(r.1.id, CompKey.widgetTag, 0), (r.1.id, CompKey.childOf 0, 0)] ∧
    r.2.comps.filter (fun c => c.1 == r.1.id)
      = [(r.1.id, CompKey.widgetTag, 0), (r.1.id, CompKey.childOf 0, 0)] :=
  c10_attach_spawns_synchronously ⟨1, [0], [(0, CompKey.widgetTag, 0)]⟩ ⟨0⟩
    [(CompKey.user 1, 5)] (by decide)

end Fragments
